import Mathlib

/-!
Verification development for a medical-appointments dashboard (`app.py`).

The program loads a CSV table once, derives columns (`waiting_days`,
`day_of_week`, `no_show_flag`), filters the table by sidebar selections
(`filter_data`), and aggregates the filtered view for display
(`update_dashboard`) or download (`download_filtered`).

Embedding choices:
- a table is a `List` of records, in file order;
- parsed timezone-naive timestamps are whole seconds since the epoch
  (1970-01-01, a Thursday), as integers;
- the age-range widget value (a Python list) is `Option (Int × Int)`:
  `none` models the falsy shapes (`None` or the empty list) that make the
  guard `if age_range:` skip the age filter, and `some (lo, hi)` models a
  two-element list `[lo, hi]`;
- `Series.map` over a dict yields NaN for unmatched keys, so
  `no_show_flag` is `Option Nat` with `none` for NaN;
- `Series.mean` (skipna) over an empty series yields NaN, so means are
  `Option ℚ` with `none` for the NaN case;
- a plotly categorical axis built with a `category_orders` list starts
  from the listed categories and appends unlisted data categories in
  order of appearance (`histCategories`).
-/

namespace MedApp

/-- A source row after column normalization and timestamp parsing
(`pd.read_csv` + `pd.to_datetime`, lines 8-13 of `app.py`): the columns
the dashboard logic reads. -/
structure RawRow where
  patientid : Nat
  gender : String
  scheduledday : Int
  appointmentday : Int
  age : Int
  neighbourhood : String
  no_show : String
deriving DecidableEq, Repr

/-- A loaded row: source columns plus the derived columns of lines 14-17. -/
structure Row where
  patientid : Nat
  gender : String
  scheduledday : Int
  appointmentday : Int
  age : Int
  neighbourhood : String
  no_show : String
  waiting_days : Int
  day_of_week : String
  no_show_flag : Option Nat
deriving DecidableEq, Repr

def secondsPerDay : Int := 86400

/-- `(df['appointmentday'] - df['scheduledday']).dt.days` (line 14):
`Timedelta.days` floors the signed difference in whole 24-hour periods
(`Timedelta(hours=-1).days == -1`), hence `Int.fdiv`. -/
def waiting_days (appointmentday scheduledday : Int) : Int :=
  Int.fdiv (appointmentday - scheduledday) secondsPerDay

/-- Weekday names produced by `Series.dt.day_name()`, Monday-first. -/
def dayNames : List String :=
  ["Monday", "Tuesday", "Wednesday", "Thursday", "Friday", "Saturday", "Sunday"]

/-- `df['appointmentday'].dt.day_name()` (line 15): the weekday of the
timestamp's date. Day 0 of the epoch is a Thursday, index 3. -/
def day_name (t : Int) : String :=
  dayNames.getD ((Int.fdiv t secondsPerDay + 3).emod 7).toNat "Monday"

/-- `df['no_show'].map({'No': 0, 'Yes': 1})` (line 17): a dict `map`
silently yields NaN (`none`) on any other label. -/
def no_show_map (s : String) : Option Nat :=
  if s = "No" then some 0 else if s = "Yes" then some 1 else none

/-- Derivation of one loaded row (lines 14-17). -/
def loadRow (r : RawRow) : Row :=
  { patientid := r.patientid
    gender := r.gender
    scheduledday := r.scheduledday
    appointmentday := r.appointmentday
    age := r.age
    neighbourhood := r.neighbourhood
    no_show := r.no_show
    waiting_days := waiting_days r.appointmentday r.scheduledday
    day_of_week := day_name r.appointmentday
    no_show_flag := no_show_map r.no_show }

/-- The one-time load (lines 8-17): row order is file order. -/
def load (raw : List RawRow) : List Row := raw.map loadRow

/-- `filter_data(gender, age_range, neighborhood)` (lines 91-99).
Each Python `if` guard tests truthiness: an empty gender or neighborhood
list skips that filter; a falsy `age_range` (`none`) skips the age filter. -/
def filter_data (gender : List String) (age_range : Option (Int × Int))
    (neighborhood : List String) (df : List Row) : List Row :=
  let filtered := df
  let filtered := if gender ≠ [] then
    filtered.filter (fun r => gender.contains r.gender) else filtered
  let filtered := match age_range with
    | some (lo, hi) =>
        filtered.filter (fun r => decide (lo ≤ r.age) && decide (r.age ≤ hi))
    | none => filtered
  let filtered := if neighborhood ≠ [] then
    filtered.filter (fun r => neighborhood.contains r.neighbourhood) else filtered
  filtered

/-- `Series.mean()` with default `skipna`: NaN (`none`) on an empty
series, otherwise the arithmetic mean. -/
def seriesMean (xs : List ℚ) : Option ℚ :=
  if xs = [] then none else some (xs.sum / xs.length)

/-- `filtered['no_show_flag'].mean()` (line 124): NaN flags are skipped,
an all-NaN or empty series gives NaN. -/
def no_show_rate (view : List Row) : Option ℚ :=
  seriesMean ((view.filterMap Row.no_show_flag).map (fun n => (n : ℚ)))

/-- `filtered['waiting_days'].mean()` (line 125). -/
def avg_waiting (view : List Row) : Option ℚ :=
  seriesMean (view.map (fun r => (r.waiting_days : ℚ)))

/-- `filtered['patientid'].nunique()` (line 126). -/
def unique_patients (view : List Row) : Nat :=
  ((view.map Row.patientid).dedup).length

/-- The category list of a plotly categorical axis given a
`category_orders` list: the listed categories first, then data
categories not listed, in order of appearance. -/
def histCategories (fixedOrder dataVals : List String) : List String :=
  fixedOrder ++ dataVals.foldl
    (fun acc d => if fixedOrder.contains d || acc.contains d then acc else acc ++ [d]) []

/-- The weekday chart's aggregate (lines 130-132): per axis category, the
row counts of `x = 'day_of_week'` split by `color = 'no_show'`
(attended count, then no-show count), with
`category_orders` fixing Monday through Sunday. -/
def weekday_counts (view : List Row) : List (String × Nat × Nat) :=
  (histCategories dayNames (view.map Row.day_of_week)).map (fun d =>
    (d,
     (view.filter (fun r => r.day_of_week == d && r.no_show == "No")).length,
     (view.filter (fun r => r.day_of_week == d && r.no_show == "Yes")).length))

/-- The scalar and chart outputs of `update_dashboard` that this
development verifies, plus the table payload (line 140). -/
structure Outputs where
  total_appointments : Nat
  no_show_rate : Option ℚ
  avg_waiting : Option ℚ
  unique_patients : Nat
  weekday_counts : List (String × Nat × Nat)
  table_data : List Row
deriving DecidableEq

/-- `update_dashboard` (lines 120-140) with the process-global table `df`
threaded explicitly: the second component is the global table when the
callback returns. No statement of the callback assigns to the global, and
`filter_data` starts from `df.copy()`, so the table passes through. -/
def update_dashboard (df : List Row) (gender : List String)
    (age_range : Option (Int × Int)) (neighborhood : List String) :
    Outputs × List Row :=
  let filtered := filter_data gender age_range neighborhood df
  ({ total_appointments := filtered.length
     no_show_rate := no_show_rate filtered
     avg_waiting := avg_waiting filtered
     unique_patients := unique_patients filtered
     weekday_counts := weekday_counts filtered
     table_data := filtered }, df)

/-- `download_filtered` (lines 150-152) with the global table threaded
the same way: first component the serialized view, second the global
table after the callback. -/
def download_filtered (df : List Row) (gender : List String)
    (age_range : Option (Int × Int)) (neighborhood : List String) :
    List Row × List Row :=
  (filter_data gender age_range neighborhood df, df)

/-- The spec's reading of the age constraint, stated as a proposition to
compare with `filter_data`: the constraint is applied for every shape of
the age field, an empty age field meaning the default full range
([0, 100] in this system's default configuration), never a skipped
constraint. -/
def ageConstraintNeverSkipped : Prop :=
  ∀ (df : List Row) (r : Row), r ∈ filter_data [] none [] df →
    0 ≤ r.age ∧ r.age ≤ 100

/-- Concrete sample table, after the worked example of the spec: rows
(F, 30, A, No), (M, 45, B, Yes), (F, 70, A, Yes). Appointment timestamps
fall on epoch days 3, 1 and 0 (a Sunday, a Friday and a Thursday), so no
row falls on a Monday. -/
def sampleRaw : List RawRow :=
  [{ patientid := 1, gender := "F", scheduledday := 0, appointmentday := 259200,
     age := 30, neighbourhood := "A", no_show := "No" },
   { patientid := 2, gender := "M", scheduledday := 0, appointmentday := 86400,
     age := 45, neighbourhood := "B", no_show := "Yes" },
   { patientid := 3, gender := "F", scheduledday := 3600, appointmentday := 0,
     age := 70, neighbourhood := "A", no_show := "Yes" }]

/-- A row whose age (200) lies outside the default full range [0, 100]. -/
def rawOld : RawRow :=
  { patientid := 9, gender := "M", scheduledday := 0, appointmentday := 0,
    age := 200, neighbourhood := "Z", no_show := "No" }

/-- A row with an outcome label that is neither "No" nor "Yes". -/
def rawUnknownLabel : RawRow :=
  { patientid := 7, gender := "F", scheduledday := 0, appointmentday := 3600,
    age := 25, neighbourhood := "A", no_show := "Maybe" }

/-- A row scheduled at 10:00 with its appointment at 08:00 of the same
calendar date (epoch day 0). -/
def rawSameDay : RawRow :=
  { patientid := 5, gender := "M", scheduledday := 36000, appointmentday := 28800,
    age := 40, neighbourhood := "B", no_show := "No" }

/-! Helper lemmas. -/

lemma ite_filter_sublist {c : Prop} [Decidable c] (p : Row → Bool) (l : List Row) :
    (if c then l.filter p else l).Sublist l := by
  split
  · exact List.filter_sublist l
  · exact List.Sublist.refl l

lemma filter_data_sublist (g : List String) (ar : Option (Int × Int))
    (n : List String) (df : List Row) : (filter_data g ar n df).Sublist df := by
  unfold filter_data
  rcases ar with _ | ⟨lo, hi⟩
  · exact (ite_filter_sublist _ _).trans (ite_filter_sublist _ _)
  · exact (ite_filter_sublist _ _).trans
      ((List.filter_sublist _).trans (ite_filter_sublist _ _))

lemma contains_of_mem (l : List String) (a : String) (h : a ∈ l) :
    l.contains a = true := List.elem_iff.mpr h

lemma mem_of_contains (l : List String) (a : String) (h : l.contains a = true) :
    a ∈ l := List.elem_iff.mp h

lemma mem_filter_data (g : List String) (ar : Option (Int × Int))
    (n : List String) (df : List Row) (r : Row)
    (hr : r ∈ filter_data g ar n df) :
    r ∈ df ∧ (g = [] ∨ r.gender ∈ g) ∧
      (∀ lo hi, ar = some (lo, hi) → lo ≤ r.age ∧ r.age ≤ hi) ∧
      (n = [] ∨ r.neighbourhood ∈ n) := by
  unfold filter_data at hr
  rcases ar with _ | ⟨lo, hi⟩
  · by_cases hg : g = [] <;> by_cases hn : n = [] <;>
      simp only [hg, hn, ne_eq, not_true_eq_false, not_false_eq_true,
        if_true, if_false, ite_true, ite_false, List.mem_filter] at hr
    · exact ⟨hr, Or.inl hg, by simp, Or.inl hn⟩
    · exact ⟨hr.1, Or.inl hg, by simp, Or.inr (mem_of_contains _ _ hr.2)⟩
    · exact ⟨hr.1, Or.inr (mem_of_contains _ _ hr.2), by simp, Or.inl hn⟩
    · exact ⟨hr.1.1, Or.inr (mem_of_contains _ _ hr.1.2), by simp,
        Or.inr (mem_of_contains _ _ hr.2)⟩
  · by_cases hg : g = [] <;> by_cases hn : n = [] <;>
      simp only [hg, hn, ne_eq, not_true_eq_false, not_false_eq_true,
        if_true, if_false, ite_true, ite_false, List.mem_filter,
        Bool.and_eq_true, decide_eq_true_eq] at hr
    · exact ⟨hr.1, Or.inl hg, (fun lo' hi' h => by cases h; exact hr.2), Or.inl hn⟩
    · exact ⟨hr.1.1, Or.inl hg, (fun lo' hi' h => by cases h; exact hr.1.2),
        Or.inr (mem_of_contains _ _ hr.2)⟩
    · exact ⟨hr.1.1, Or.inr (mem_of_contains _ _ hr.1.2),
        (fun lo' hi' h => by cases h; exact hr.2), Or.inl hn⟩
    · exact ⟨hr.1.1.1, Or.inr (mem_of_contains _ _ hr.1.1.2),
        (fun lo' hi' h => by cases h; exact hr.1.2),
        Or.inr (mem_of_contains _ _ hr.2)⟩

lemma filter_data_none_empty (df : List Row) : filter_data [] none [] df = df := by
  unfold filter_data
  simp

lemma day_name_mem_dayNames (t : Int) : day_name t ∈ dayNames := by
  unfold day_name
  have h7 : ∀ i : Nat, i < 7 → dayNames.getD i "Monday" ∈ dayNames := by decide
  have h1 : 0 ≤ (Int.fdiv t secondsPerDay + 3).emod 7 := Int.emod_nonneg _ (by norm_num)
  have h2 : (Int.fdiv t secondsPerDay + 3).emod 7 < 7 := Int.emod_lt_of_pos _ (by norm_num)
  exact h7 _ (by omega)

lemma mem_load_day (raw : List RawRow) (r : Row) (hr : r ∈ load raw) :
    r.day_of_week ∈ dayNames := by
  unfold load at hr
  rcases List.mem_map.mp hr with ⟨r0, _, rfl⟩
  exact day_name_mem_dayNames r0.appointmentday

lemma histCategories_all_listed (fixedOrder dataVals : List String)
    (h : ∀ d ∈ dataVals, fixedOrder.contains d = true) :
    histCategories fixedOrder dataVals = fixedOrder := by
  unfold histCategories
  have key : ∀ (l acc : List String), (∀ d ∈ l, fixedOrder.contains d = true) →
      l.foldl (fun acc d =>
        if fixedOrder.contains d || acc.contains d then acc else acc ++ [d]) acc = acc := by
    intro l
    induction l with
    | nil => intro acc _; rfl
    | cons d l ih =>
        intro acc hl
        rw [List.foldl_cons]
        have hd : fixedOrder.contains d = true := hl d (List.mem_cons_self _ _)
        simp only [hd, Bool.true_or, if_true, ite_true]
        exact ih acc (fun x hx => hl x (List.mem_cons_of_mem _ hx))
  rw [key dataVals [] h, List.append_nil]

/-! Claim theorems. -/

/-- Claim C1: for every filter selection (gender set, inclusive age
interval, neighborhood set) and every table, each row of the view
returned by `filter_data` satisfies all three constraints — gender in
the set or the set empty, `lo ≤ age ≤ hi`, neighborhood in the set or
the set empty — combined conjunctively, and the view has at most as many
rows as the full table. -/
theorem filter_data_sound (g : List String) (lo hi : Int) (n : List String)
    (df : List Row) :
    (∀ r ∈ filter_data g (some (lo, hi)) n df,
        (g = [] ∨ r.gender ∈ g) ∧ (lo ≤ r.age ∧ r.age ≤ hi) ∧
        (n = [] ∨ r.neighbourhood ∈ n)) ∧
    (filter_data g (some (lo, hi)) n df).length ≤ df.length := by
  constructor
  · intro r hr
    have h := mem_filter_data g (some (lo, hi)) n df r hr
    exact ⟨h.2.1, h.2.2.1 lo hi rfl, h.2.2.2⟩
  · exact (filter_data_sublist g (some (lo, hi)) n df).length_le

/-- Witness for C1: the gender selection {F} with age range [0, 100] on
the sample table keeps the first sample row, which satisfies all three
constraints, and the view is no longer than the table. -/
theorem filter_data_sound_witness :
    ((["F"] = ([] : List String) ∨ (loadRow (sampleRaw.getD 0 rawOld)).gender ∈ ["F"]) ∧
      ((0 : Int) ≤ (loadRow (sampleRaw.getD 0 rawOld)).age ∧
        (loadRow (sampleRaw.getD 0 rawOld)).age ≤ 100) ∧
      (([] : List String) = [] ∨ (loadRow (sampleRaw.getD 0 rawOld)).neighbourhood ∈ ([] : List String))) ∧
    (filter_data ["F"] (some (0, 100)) [] (load sampleRaw)).length ≤ (load sampleRaw).length :=
  ⟨(filter_data_sound ["F"] 0 100 [] (load sampleRaw)).1
      (loadRow (sampleRaw.getD 0 rawOld)) (by decide),
   (filter_data_sound ["F"] 0 100 [] (load sampleRaw)).2⟩

/-- Counterexample for C2: `filter_data` guards the age filter with the
truthiness test `if age_range:`, so the empty/None shape of the age
field skips the age constraint entirely — a row of age 200, outside the
default full range [0, 100], survives the filter. -/
theorem age_constraint_skipped_counterexample : ¬ ageConstraintNeverSkipped := by
  intro h
  have h200 := (h [loadRow rawOld] (loadRow rawOld) (by decide)).2
  exact absurd h200 (by decide)

/-- Claim C2 as amended: `filter_data` applies the inclusive age
constraint whenever the age field holds a range (a two-element value);
when the age field is empty/None the age filter is skipped, so with no
other constraint the full table is returned. -/
theorem filter_data_age_applied_when_present (g : List String) (lo hi : Int)
    (n : List String) (df : List Row) :
    (∀ r ∈ filter_data g (some (lo, hi)) n df, lo ≤ r.age ∧ r.age ≤ hi) ∧
    filter_data [] none [] df = df :=
  ⟨fun r hr => (mem_filter_data g (some (lo, hi)) n df r hr).2.2.1 lo hi rfl,
   filter_data_none_empty df⟩

/-- Witness for the amended C2: on the sample table with range [0, 100],
the first sample row survives with its age inside the range, and the
empty-shape call returns the table unchanged. -/
theorem filter_data_age_applied_witness :
    ((0 : Int) ≤ (loadRow (sampleRaw.getD 0 rawOld)).age ∧
      (loadRow (sampleRaw.getD 0 rawOld)).age ≤ 100) ∧
    filter_data [] none [] (load sampleRaw) = load sampleRaw :=
  ⟨(filter_data_age_applied_when_present ["F"] 0 100 [] (load sampleRaw)).1
      (loadRow (sampleRaw.getD 0 rawOld)) (by decide),
   (filter_data_age_applied_when_present ["F"] 0 100 [] (load sampleRaw)).2⟩

/-- Claim C3, evaluated at the failing input: a selection matching no
row (gender "X") gives an empty view, and `update_dashboard` then leaves
the no-show rate and the average waiting days undefined (`none`, the NaN
of `Series.mean` on an empty series) instead of a defined fallback. -/
theorem empty_view_rate_undefined :
    (update_dashboard (load sampleRaw) ["X"] (some (0, 100)) []).1.no_show_rate = none ∧
    (update_dashboard (load sampleRaw) ["X"] (some (0, 100)) []).1.avg_waiting = none := by
  constructor <;> rfl

/-- Claim C6: the empty selection — no gender, no neighborhood, and an
age range covering every age in the table — yields a view identical to
the full table, same rows in the same order. -/
theorem filter_data_full_range_identity (lo hi : Int) (df : List Row)
    (h : ∀ r ∈ df, lo ≤ r.age ∧ r.age ≤ hi) :
    filter_data [] (some (lo, hi)) [] df = df := by
  unfold filter_data
  simp only [ne_eq, not_true_eq_false, if_false, ite_false]
  rw [List.filter_eq_self.mpr]
  intro r hr
  have := h r hr
  simp [this.1, this.2]

/-- Witness for C6: on the sample table, the range [0, 100] covers every
age and the empty selection returns the table itself. -/
theorem filter_data_full_range_identity_witness :
    filter_data [] (some (0, 100)) [] (load sampleRaw) = load sampleRaw :=
  filter_data_full_range_identity 0 100 (load sampleRaw) (by decide)

/-- Claim C7: for every selection, the view returned by `filter_data`
preserves the original row order of the full table — it is a subsequence
of the table's row sequence. -/
theorem filter_data_preserves_order (g : List String) (ar : Option (Int × Int))
    (n : List String) (df : List Row) :
    (filter_data g ar n df).Sublist df :=
  filter_data_sublist g ar n df

/-- Claim C9: the full table is never mutated by the callbacks — both
`update_dashboard` and `download_filtered` return the global table
unchanged, and the view each one serves is a fresh derivation
(`filter_data` applied to the original table). -/
theorem table_never_mutated (df : List Row) (g : List String)
    (ar : Option (Int × Int)) (n : List String) :
    (update_dashboard df g ar n).2 = df ∧
    (download_filtered df g ar n).2 = df ∧
    (update_dashboard df g ar n).1.table_data = filter_data g ar n df ∧
    (download_filtered df g ar n).1 = filter_data g ar n df :=
  ⟨rfl, rfl, rfl, rfl⟩

/-- Claim C5: for every view obtained by filtering a loaded table, the
weekday aggregate has exactly the 7 categories Monday through Sunday in
that fixed order, and a weekday absent from the view appears with count
zero (both outcome splits) rather than being omitted. -/
theorem weekday_histogram_complete (raw : List RawRow) (g : List String)
    (ar : Option (Int × Int)) (n : List String) :
    ((weekday_counts (filter_data g ar n (load raw))).map Prod.fst = dayNames) ∧
    (∀ e ∈ weekday_counts (filter_data g ar n (load raw)),
      (∀ r ∈ filter_data g ar n (load raw), r.day_of_week ≠ e.1) →
      e.2.1 = 0 ∧ e.2.2 = 0) := by
  have hdays : ∀ r ∈ filter_data g ar n (load raw), r.day_of_week ∈ dayNames :=
    fun r hr =>
      mem_load_day raw r ((filter_data_sublist g ar n (load raw)).subset hr)
  have hcats : histCategories dayNames
      ((filter_data g ar n (load raw)).map Row.day_of_week) = dayNames := by
    apply histCategories_all_listed
    intro d hd
    rcases List.mem_map.mp hd with ⟨r, hr, rfl⟩
    exact contains_of_mem _ _ (hdays r hr)
  constructor
  · unfold weekday_counts
    rw [hcats, List.map_map]
    rfl
  · intro e he hne
    unfold weekday_counts at he
    rw [hcats] at he
    rcases List.mem_map.mp he with ⟨d, _, rfl⟩
    dsimp only at hne ⊢
    constructor <;>
    · rw [List.filter_eq_nil_iff.mpr, List.length_nil]
      intro r hr hcontra
      rw [Bool.and_eq_true] at hcontra
      exact hne r hr (by simpa using hcontra.1)

/-- Witness for C5: no sample row falls on a Monday, yet the aggregate
of the unfiltered sample view lists all 7 weekdays in fixed order and
carries the entry (Monday, 0, 0). -/
theorem weekday_histogram_complete_witness :
    ((weekday_counts (filter_data [] none [] (load sampleRaw))).map Prod.fst = dayNames) ∧
    ((("Monday", 0, 0) : String × Nat × Nat).2.1 = 0 ∧
      (("Monday", 0, 0) : String × Nat × Nat).2.2 = 0) :=
  ⟨(weekday_histogram_complete sampleRaw [] none []).1,
   (weekday_histogram_complete sampleRaw [] none []).2 ("Monday", 0, 0)
      (by decide) (by decide)⟩

/-- Claim C8, evaluated at the failing input: the outcome label "Maybe"
is neither "No" nor "Yes"; the load completes without any error and
silently derives a missing flag (`none`, the NaN of a dict `map`) for
that row, instead of failing fatally at load time. -/
theorem unrecognized_label_silent_missing :
    load [rawUnknownLabel] =
      [{ patientid := 7, gender := "F", scheduledday := 0, appointmentday := 3600,
         age := 25, neighbourhood := "A", no_show := "Maybe",
         waiting_days := 0, day_of_week := "Thursday", no_show_flag := none }] := by
  rfl

/-- Claim C10: `waiting_days` is the floor of the timestamp difference
in whole 24-hour periods — it satisfies the floor bounds for every row —
and in particular, when both timestamps fall on the same calendar date
with the scheduled time-of-day later than the appointment time-of-day,
the derived value is -1, not the calendar-date difference 0. -/
theorem waiting_days_floor_of_timestamps (r : RawRow) :
    (secondsPerDay * (loadRow r).waiting_days ≤ r.appointmentday - r.scheduledday ∧
      r.appointmentday - r.scheduledday < secondsPerDay * ((loadRow r).waiting_days + 1)) ∧
    (Int.fdiv r.appointmentday secondsPerDay = Int.fdiv r.scheduledday secondsPerDay →
      r.appointmentday % secondsPerDay < r.scheduledday % secondsPerDay →
      (loadRow r).waiting_days = -1) := by
  have e : ∀ x : Int, Int.fdiv x 86400 = x / 86400 :=
    fun x => Int.fdiv_eq_ediv x (by norm_num)
  simp only [loadRow, waiting_days, secondsPerDay, e]
  constructor
  · omega
  · intro h1 h2
    omega

/-- Witness for C10: a row scheduled at 10:00 with its appointment at
08:00 of the same epoch day has `waiting_days = -1`. -/
theorem waiting_days_floor_witness :
    Int.fdiv rawSameDay.appointmentday secondsPerDay =
      Int.fdiv rawSameDay.scheduledday secondsPerDay ∧
    rawSameDay.appointmentday % secondsPerDay <
      rawSameDay.scheduledday % secondsPerDay ∧
    (loadRow rawSameDay).waiting_days = -1 :=
  ⟨by decide, by decide,
   (waiting_days_floor_of_timestamps rawSameDay).2 (by decide) (by decide)⟩

end MedApp
